import Mathlib

/-!
# Verification of the FS25 documentation scraper (`main.py`)

A shallow embedding of the scraper in Lean 4.  Python strings are modelled
as `String` / `List Char`; Python dicts that the code only ever extends and
reads are modelled as association lists preserving insertion order; the
filesystem is an association list from path to file contents; the network
is a function from request parameters to an optional parsed page; side
effects that the program only prints (log lines, manifest/index writes) are
recorded in an explicit event trace.

External libraries (`requests`, `BeautifulSoup`, `html2text`) are not part
of the repository: their *outputs* appear as the parsed-page structures and
the raw markdown string below, while every line of the repository's own
logic is translated directly from `src/main.py`.
-/

namespace FS25

/-! ## Character classes (ASCII fragment of Python's regex classes)

`re.sub(r'[^\w\s-]', '', s)` keeps word characters (`\w` = alphanumerics
and underscore), whitespace (`\s`) and the hyphen, and deletes everything
else.  The model restricts the Unicode classes to their ASCII parts, which
covers every name occurring on the scraped site. -/

/-- Python's `\s` class (ASCII part): the characters stripped by `str.strip()`. -/
def pyIsSpace (c : Char) : Bool :=
  c = ' ' || c = '\t' || c = '\n' || c = '\r' || c = '\x0b' || c = '\x0c'

/-- Python's `\w` class (ASCII part): alphanumerics and the underscore. -/
def isWordChar (c : Char) : Bool :=
  c.isAlphanum || c = '_'

/-- Characters kept by `re.sub(r'[^\w\s-]', '', ·)` in `save_content` /
`scrape_page` (`src/main.py` lines 202-203 and 320-321). -/
def keepSanChar (c : Char) : Bool :=
  isWordChar c || pyIsSpace c || c = '-'

/-! ## String helpers mirroring the Python methods used by the scraper -/

/-- `str.strip()` on a character list: drop leading and trailing whitespace. -/
def pyStripL (l : List Char) : List Char :=
  ((l.dropWhile pyIsSpace).reverse.dropWhile pyIsSpace).reverse

/-- `str.strip()` on a `String`. -/
def pyStrip (s : String) : String :=
  String.mk (pyStripL s.data)

/-- `str.replace(' ', '_')` — single-character replacement is a map. -/
def replaceSpaceL (l : List Char) : List Char :=
  l.map (fun c => if c = ' ' then '_' else c)

/-- The name sanitizer of `save_content` / `scrape_page`
(`src/main.py` lines 202-203, 320-321):
`re.sub(r'[^\w\s-]', '', name).strip().replace(' ', '_')`. -/
def sanitizeL (l : List Char) : List Char :=
  replaceSpaceL (pyStripL (l.filter keepSanChar))

/-- `sanitizeL` on a `String`. -/
def sanitize (s : String) : String :=
  String.mk (sanitizeL s.data)

/-! ## Markdown cleanup (`html_to_markdown`, `src/main.py` lines 179-193)

`markdown = re.sub(r'\n{3,}', '\n\n', markdown)` replaces every maximal run
of at least three newlines by exactly two newlines; then `markdown.strip()`.
The conversion itself (`self.h2t.handle(html_str)`) is the external
`html2text` library; its output string is the input of this cleanup. -/

/-- Replacement text for a run of `p` pending newlines: a run of three or
more newlines becomes two newlines (one blank line), shorter runs are kept. -/
def emitNl (p : Nat) : List Char :=
  if 3 ≤ p then ['\n', '\n'] else List.replicate p '\n'

/-- One left-to-right pass of `re.sub(r'\n{3,}', '\n\n', ·)`:
`p` counts the newlines of the run currently being read. -/
def collapseGo (p : Nat) : List Char → List Char
  | [] => emitNl p
  | c :: cs => if c = '\n' then collapseGo (p + 1) cs else emitNl p ++ c :: collapseGo 0 cs

/-- `re.sub(r'\n{3,}', '\n\n', ·)` (`src/main.py` line 191). -/
def collapseNl (l : List Char) : List Char :=
  collapseGo 0 l

/-- `html_to_markdown` applied to the `html2text` output string
(`src/main.py` lines 179-193): collapse newline runs, then `strip()`. -/
def html_to_markdown (h2tOutput : String) : String :=
  String.mk (pyStripL (collapseNl h2tOutput.data))

/-! ## Leaf / category records (the dicts built by `parse_main_page` and
`get_subcategories`) -/

/-- A category or leaf dict: keys `version`, `category`, `class` (script) or
`function` (engine) — merged into `param`, since the code always writes
exactly one of the two — `name`, and the optional `category_name` added by
`get_subcategories`. -/
structure CategoryInfo where
  version : String
  category : String
  param : String
  name : String
  category_name : Option String
deriving DecidableEq, Repr

/-- The query parameters built at `src/main.py` lines 108-116 and 306-314:
`version`, `category`, and `class` for version `script`, `function` otherwise. -/
structure Params where
  version : String
  category : String
  cls : Option String
  func : Option String
deriving DecidableEq, Repr

/-- The parameter-building block shared by `get_subcategories` and
`scrape_page` (`src/main.py` lines 108-116, 306-314). -/
def buildParams (info : CategoryInfo) : Params :=
  { version := info.version
    category := info.category
    cls := if info.version = "script" then some info.param else none
    func := if info.version = "script" then none else some info.param }

/-! ## Parsed-page structures (outputs of BeautifulSoup lookups)

Each `Option` marks a `find` that can come back `None`; lists keep document
order.  Query strings of links appear already parsed (`parse_qs`). -/

/-- An `<a>` inside the selected category's nested `<ul>`: its text and the
`class` / `function` values of its parsed `href` query. -/
structure SubLink where
  text : String
  cls : Option String
  func : Option String
deriving DecidableEq, Repr

/-- `sidebar.find('li', class_='selected')` result: optionally a nested `<ul>`. -/
structure SelectedLi where
  nestedUl : Option (List SubLink)
deriving DecidableEq, Repr

/-- The sidebar div of a category page, as used by `get_subcategories`. -/
structure Sidebar where
  selectedLi : Option SelectedLi
deriving DecidableEq, Repr

/-- A content `<div>`; `md` is the `html2text` conversion of its serialized
HTML (the external `self.h2t.handle(str(div))`). -/
structure DivNode where
  md : String
deriving DecidableEq, Repr

/-- `box5.find('div', class_='entry')` result with its non-recursive `<div>`
children (`entry.find_all('div', recursive=False)`). -/
structure EntryNode where
  childDivs : List DivNode
deriving DecidableEq, Repr

/-- `soup.find('div', id='box5')` result. -/
structure Box5 where
  entry : Option EntryNode
deriving DecidableEq, Repr

/-- A fetched and parsed documentation page: the parts of the soup that
`get_subcategories` (sidebar) and `extract_content` (box5) inspect. -/
structure FetchedPage where
  sidebar : Option Sidebar
  box5 : Option Box5
deriving DecidableEq, Repr

/-- `extract_content` (`src/main.py` lines 160-177): `#box5`, then its
`.entry`, then the second non-recursive `<div>` child (`content_divs[1]`);
`none` as soon as any of those is absent. -/
def extract_content (page : FetchedPage) : Option DivNode :=
  match page.box5 with
  | none => none
  | some box5 =>
    match box5.entry with
    | none => none
    | some entry => entry.childDivs.get? 1

/-! ## Association lists: Python dict operations used by the scraper

The scraper's dicts are only read (`k in d`, `d[k]`) and written
(`d[k] = v`).  Insertion order is preserved, matching Python dicts. -/

/-- `d.get(k)` / `d[k]`: value of the first (unique) matching key. -/
def alistGet {α : Type} (k : String) : List (String × α) → Option α
  | [] => none
  | (k', v) :: rest => if k' = k then some v else alistGet k rest

/-- `d[k] = v`: replace the first matching key, else append. -/
def alistSet {α : Type} (k : String) (v : α) : List (String × α) → List (String × α)
  | [] => [(k, v)]
  | (k', v') :: rest => if k' = k then (k, v) :: rest else (k', v') :: alistSet k v rest

/-! ## Manifest (`self.manifest`, `src/main.py` lines 31-38 and 224-248)

`generated_at` (external wall clock) and the constant `source_url` are not
modelled; `total_files` is. -/

/-- One entry of a category's `items` list. -/
structure ManifestItem where
  name : String
  path : String
deriving DecidableEq, Repr

/-- `manifest['versions'][v]['categories'][c]`. -/
structure ManifestCategory where
  items : List ManifestItem
deriving DecidableEq, Repr

/-- `manifest['versions'][v]`. -/
structure ManifestVersion where
  categories : List (String × ManifestCategory)
deriving DecidableEq, Repr

/-- `manifest['metadata']` (the `total_files` counter). -/
structure ManifestMetadata where
  total_files : Nat
deriving DecidableEq, Repr

/-- The in-memory manifest. -/
structure Manifest where
  metadata : ManifestMetadata
  versions : List (String × ManifestVersion)
deriving DecidableEq, Repr

/-- The manifest built in `__init__` (`src/main.py` lines 31-38). -/
def initialManifest : Manifest :=
  { metadata := { total_files := 0 }, versions := [] }

/-- `if k not in d: d[k] = init` — the bucket-initialisation idiom of
`_add_to_manifest` (`src/main.py` lines 227-236). -/
def bucketInit {α : Type} (k : String) (init : α) (l : List (String × α)) :
    List (String × α) :=
  if (alistGet k l).isSome then l else alistSet k init l

/-- `_add_to_manifest` (`src/main.py` lines 224-248): initialize the version
and category buckets when missing, append one item, increment `total_files`. -/
def add_to_manifest (m : Manifest) (version category_name item_name relative_path : String) :
    Manifest :=
  let versions0 := bucketInit version { categories := [] } m.versions
  let v := (alistGet version versions0).getD { categories := [] }
  let cats0 := bucketInit category_name { items := [] } v.categories
  let c := (alistGet category_name cats0).getD { items := [] }
  let c' : ManifestCategory := { items := c.items ++ [{ name := item_name, path := relative_path }] }
  let v' : ManifestVersion := { categories := alistSet category_name c' cats0 }
  { metadata := { total_files := m.metadata.total_files + 1 }
    versions := alistSet version v' versions0 }

/-- Number of items stored under one version of the manifest. -/
def versionSize (v : ManifestVersion) : Nat :=
  (v.categories.map (fun e => e.2.items.length)).sum

/-- Total number of items stored in the manifest, over all versions and
categories. -/
def manifestSum (m : Manifest) : Nat :=
  (m.versions.map (fun e => versionSize e.2)).sum

/-- The manifest counter invariant: `total_files` equals the number of
stored items. -/
def manifestInv (m : Manifest) : Prop :=
  m.metadata.total_files = manifestSum m

/-! ## Filesystem and scraper state -/

/-- The output tree: an insertion-ordered map from file path to contents.
`Path.exists` is key membership; `open(path, 'w')` overwrites. -/
def FileSystem : Type := List (String × String)

/-- `file_path.exists()`. -/
def fsHas (fs : FileSystem) (path : String) : Bool :=
  (alistGet path fs).isSome

/-- Mutable state of the `FS25DocScraper` object relevant to the claims:
the in-memory manifest and the output directory contents. -/
structure ScrapeState where
  manifest : Manifest
  fs : FileSystem

/-! ## Event trace

Observable actions of a run that the claims talk about: HTTP fetches, the
per-item log lines, and the end-of-run manifest/index writes and summary. -/

/-- One observable action of a run. -/
inductive Event where
  /-- the `get_page(self.base_url)` fetch inside `parse_main_page` -/
  | fetchRoot : Event
  /-- a `get_page(self.base_url, params=...)` fetch for a category or leaf -/
  | fetch (p : Params) : Event
  /-- the log line of the existence-check skip in `scrape_page` -/
  | alreadyExists (itemName : String) : Event
  /-- the log line for a page without the expected content structure -/
  | noContent (itemName : String) : Event
  /-- a file written by `save_content` -/
  | saved (path : String) : Event
  /-- the `manifest.json` write in `save_manifest` -/
  | saveManifest : Event
  /-- the `INDEX.md` write in `_create_markdown_index` -/
  | saveIndex : Event
  /-- the final summary print of `scrape_all` -/
  | summary (scraped failed : Nat) : Event
deriving DecidableEq, Repr

/-- Is the event a per-leaf `save_content` write? -/
def isSavedE : Event → Bool
  | .saved _ => true
  | _ => false

/-- Is the event an existence-check skip log? -/
def isExistsE : Event → Bool
  | .alreadyExists _ => true
  | _ => false

/-- Is the event one of the end-of-run actions (manifest write, index
write, summary print)? -/
def isMetaE : Event → Bool
  | .saveManifest => true
  | .saveIndex => true
  | .summary _ _ => true
  | _ => false

/-! ## `get_page` (`src/main.py` lines 40-49)

The network outcome for a single request is a value of `NetResponse`; the
function records its externally visible actions (`time.sleep(0.5)`, then
one `session.get(url, params, timeout=30)`) in order. -/

/-- Outcome of the one `session.get` call: a body, or any
network/status exception (`raise_for_status` included). -/
inductive NetResponse where
  | success (body : String) : NetResponse
  | failure (message : String) : NetResponse
deriving DecidableEq, Repr

/-- An externally visible HTTP-layer action of `get_page`. -/
inductive HttpAction where
  /-- `time.sleep` of the given number of milliseconds -/
  | sleep (ms : Nat) : HttpAction
  /-- one `session.get(url, params=params, timeout=timeoutSecs)` -/
  | request (url : String) (params : Option Params) (timeoutSecs : Nat) : HttpAction
deriving DecidableEq, Repr

/-- Is the action an HTTP request? -/
def isRequestA : HttpAction → Bool
  | .request _ _ _ => true
  | _ => false

/-- `get_page` (`src/main.py` lines 40-49): sleep 0.5 s, issue the single
request with a 30 s timeout, return the body on success and `None` on any
exception (the error is printed, not raised). -/
def get_page (url : String) (params : Option Params) (response : NetResponse) :
    Option String × List HttpAction :=
  match response with
  | .success body => (some body, [.sleep 500, .request url params 30])
  | .failure _ => (none, [.sleep 500, .request url params 30])

/-! ## Root page and `parse_main_page` (`src/main.py` lines 51-102) -/

/-- An `<a>` of a sidebar section of the root page, with the fields of its
parsed `href` query (`parse_qs`). -/
structure NavLink where
  text : String
  version : Option String
  category : Option String
  cls : Option String
  func : Option String
deriving DecidableEq, Repr

/-- The root-page sidebar: the link lists following the `Script` and
`Engine` section headers (`none` when the header or its `<ul>` is missing). -/
structure RootSidebar where
  scriptLinks : Option (List NavLink)
  engineLinks : Option (List NavLink)
deriving DecidableEq, Repr

/-- The parsed root page (`none` sidebar when the sidebar div is missing). -/
structure RootPage where
  sidebar : Option RootSidebar
deriving DecidableEq, Repr

/-- `parse_main_page` (`src/main.py` lines 51-102) applied to the fetched
root page (`none` = `get_page` failed): collect the script links carrying
`version=script`, `category` and `class`, then the engine links carrying
`version=engine`, `category` and `function`. -/
def parse_main_page (root : Option RootPage) : List CategoryInfo :=
  match root with
  | none => []
  | some page =>
    match page.sidebar with
    | none => []
    | some sb =>
      let scripts := (sb.scriptLinks.getD []).filterMap (fun lk =>
        match lk.version, lk.category, lk.cls with
        | some v, some cat, some cl =>
          if v = "script" then
            some { version := "script", category := cat, param := cl,
                   name := pyStrip lk.text, category_name := none }
          else none
        | _, _, _ => none)
      let engines := (sb.engineLinks.getD []).filterMap (fun lk =>
        match lk.version, lk.category, lk.func with
        | some v, some cat, some fn =>
          if v = "engine" then
            some { version := "engine", category := cat, param := fn,
                   name := pyStrip lk.text, category_name := none }
          else none
        | _, _, _ => none)
      scripts ++ engines

/-! ## `get_subcategories` (`src/main.py` lines 104-158) -/

/-- The per-link body of the nested-`<ul>` loop (`src/main.py` lines
136-152): a script leaf needs `class` in the parsed query, an engine leaf
needs `function`; other links are dropped. -/
def subLinkToLeaf (info : CategoryInfo) (lk : SubLink) : Option CategoryInfo :=
  if info.version = "script" then
    lk.cls.map (fun c =>
      { version := info.version, category := info.category, param := c,
        name := pyStrip lk.text, category_name := some info.name })
  else if info.version = "engine" then
    lk.func.map (fun f =>
      { version := info.version, category := info.category, param := f,
        name := pyStrip lk.text, category_name := some info.name })
  else none

/-- `get_subcategories` (`src/main.py` lines 104-158) applied to the fetch
result of the category page: `[]` when the fetch failed or the sidebar is
missing (early returns); otherwise leaves from the selected entry's nested
`<ul>`, falling back to the category itself when none were collected. -/
def get_subcategories (info : CategoryInfo) (page : Option FetchedPage) :
    List CategoryInfo :=
  match page with
  | none => []
  | some pg =>
    match pg.sidebar with
    | none => []
    | some sb =>
      let subcategories :=
        match sb.selectedLi with
        | none => []
        | some li =>
          match li.nestedUl with
          | none => []
          | some links => links.filterMap (subLinkToLeaf info)
      if subcategories.isEmpty then [info] else subcategories

/-! ## Output paths and `save_content` (`src/main.py` lines 195-222) -/

/-- The existence-check path computed in `scrape_page`
(`src/main.py` lines 316-322). -/
def scrapePageCheckPath (outputDir : String) (info : CategoryInfo) : String :=
  let version := info.version
  let category_name := info.category_name.getD info.name
  let item_name := info.name
  let safe_category := sanitize category_name
  let safe_item := sanitize item_name
  outputDir ++ "/" ++ version ++ "/" ++ safe_category ++ "/" ++ safe_item ++ ".md"

/-- The file path computed in `save_content`
(`src/main.py` lines 197-210). -/
def saveContentPath (outputDir : String) (info : CategoryInfo) : String :=
  let version := info.version
  let category_name := info.category_name.getD info.name
  let item_name := info.name
  let safe_category := sanitize category_name
  let safe_item := sanitize item_name
  outputDir ++ "/" ++ version ++ "/" ++ safe_category ++ "/" ++ safe_item ++ ".md"

/-- `save_content` (`src/main.py` lines 195-222): write the header plus
converted body to the computed path (directories are implicit in the path
map) and register the item in the manifest under its
`output_dir`-relative path.  Returns the new state and the file path. -/
def save_content (outputDir : String) (st : ScrapeState) (content : String)
    (info : CategoryInfo) : ScrapeState × String :=
  let version := info.version
  let category_name := info.category_name.getD info.name
  let item_name := info.name
  let safe_category := sanitize category_name
  let safe_item := sanitize item_name
  let file_path := saveContentPath outputDir info
  let file_body :=
    "# " ++ item_name ++ "\n\n**Category:** " ++ category_name ++
    "\n**Version:** " ++ version ++ "\n\n---\n\n" ++ content
  let relative_path := version ++ "/" ++ safe_category ++ "/" ++ safe_item ++ ".md"
  let manifest' := add_to_manifest st.manifest version category_name item_name relative_path
  ({ manifest := manifest', fs := alistSet file_path file_body st.fs }, file_path)

/-! ## `scrape_page` and `scrape_all` (`src/main.py` lines 304-393) -/

/-- `scrape_page` (`src/main.py` lines 304-345): skip (success, no fetch)
when the output file exists; otherwise fetch, extract, convert and save;
failure on a failed fetch or missing content.  The network is a function
from the request parameters to the fetched page (`none` = `get_page`
returned `None`). -/
def scrape_page (outputDir : String) (net : Params → Option FetchedPage)
    (st : ScrapeState) (info : CategoryInfo) : ScrapeState × Bool × List Event :=
  let params := buildParams info
  let file_path := scrapePageCheckPath outputDir info
  if fsHas st.fs file_path then
    (st, true, [.alreadyExists info.name])
  else
    match net params with
    | none => (st, false, [.fetch params])
    | some page =>
      match extract_content page with
      | none => (st, false, [.fetch params, .noContent info.name])
      | some contentDiv =>
        let markdown := html_to_markdown contentDiv.md
        let (st', savedPath) := save_content outputDir st markdown info
        (st', true, [.fetch params, .saved savedPath])

/-- Loop accumulator of `scrape_all`: scraper state, `total_scraped`,
`total_failed`, event trace. -/
def RunAcc : Type := ScrapeState × Nat × Nat × List Event

/-- One iteration of the per-leaf loop of `scrape_all`
(`src/main.py` lines 371-382): scrape, bump the matching counter. -/
def scrapeLeaf (outputDir : String) (net : Params → Option FetchedPage)
    (acc : RunAcc) (info : CategoryInfo) : RunAcc :=
  match acc with
  | (st, scraped, failed, evs) =>
    let (st', ok, evs') := scrape_page outputDir net st info
    (st', if ok then scraped + 1 else scraped, if ok then failed else failed + 1, evs ++ evs')

/-- One iteration of the category loop of `scrape_all`
(`src/main.py` lines 363-382): fetch the category page (inside
`get_subcategories`), resolve the leaves, scrape the category page itself
when none were found, else scrape each leaf. -/
def scrapeCategory (outputDir : String) (net : Params → Option FetchedPage)
    (acc : RunAcc) (category : CategoryInfo) : RunAcc :=
  match acc with
  | (st, scraped, failed, evs) =>
    let params := buildParams category
    let subcategories := get_subcategories category (net params)
    let evs' := evs ++ [.fetch params]
    if subcategories.isEmpty then
      scrapeLeaf outputDir net (st, scraped, failed, evs') category
    else
      subcategories.foldl (scrapeLeaf outputDir net) (st, scraped, failed, evs')

/-- The external world of one run: the parsed root page (`none` when its
fetch failed) and the responses for parameterised fetches. -/
structure World where
  root : Option RootPage
  net : Params → Option FetchedPage

/-- Result of `scrape_all`. -/
structure RunResult where
  state : ScrapeState
  scraped : Nat
  failed : Nat
  events : List Event

/-- `scrape_all` (`src/main.py` lines 347-393): parse the root page; abort
when no categories were found; else run the category loop, then write the
manifest and the index (`save_manifest`, lines 384-386) and print the
summary (lines 388-393). -/
def scrape_all (outputDir : String) (w : World) (st0 : ScrapeState) : RunResult :=
  let categories := parse_main_page w.root
  if categories.isEmpty then
    { state := st0, scraped := 0, failed := 0, events := [.fetchRoot] }
  else
    match categories.foldl (scrapeCategory outputDir w.net) (st0, 0, 0, [.fetchRoot]) with
    | (st, scraped, failed, evs) =>
      { state := st, scraped := scraped, failed := failed
        events := evs ++ [.saveManifest, .saveIndex, .summary scraped failed] }

/-- Number of leaves a category contributes to the run
(`src/main.py` lines 369-382: one when `get_subcategories` came back
empty, else one per subcategory). -/
def categoryLeafCount (net : Params → Option FetchedPage) (category : CategoryInfo) : Nat :=
  let subcategories := get_subcategories category (net (buildParams category))
  if subcategories.isEmpty then 1 else subcategories.length

/-- Total number of leaves attempted in a run. -/
def totalLeafCount (net : Params → Option FetchedPage) (categories : List CategoryInfo) : Nat :=
  (categories.map (categoryLeafCount net)).sum

/-- Is the event the `manifest.json` write? -/
def isSaveManifestE : Event → Bool
  | .saveManifest => true
  | _ => false

/-- Is the event the `INDEX.md` write? -/
def isSaveIndexE : Event → Bool
  | .saveIndex => true
  | _ => false

/-- Modelled from the spec's words, for comparison with the code's
sanitizer: "file paths are derived by stripping non-alphanumeric
characters from names and replacing spaces with a fixed separator" —
keep only alphanumerics and spaces, then replace each space by the
separator. -/
def spec_sanitize (s : String) : String :=
  String.mk ((s.data.filter (fun c => c.isAlphanum || c = ' ')).map
    (fun c => if c = ' ' then '_' else c))

/-- The output path as the spec's sanitization words would produce it. -/
def spec_path (outputDir : String) (info : CategoryInfo) : String :=
  outputDir ++ "/" ++ info.version ++ "/" ++ spec_sanitize (info.category_name.getD info.name)
    ++ "/" ++ spec_sanitize info.name ++ ".md"

/-! ## Concrete fixtures used to instantiate the theorems -/

/-- A root-page sidebar link for one script category. -/
def navCat : NavLink := ⟨"Cat", some "script", some "c", some "k", none⟩

/-- A root page carrying exactly the one script category `navCat`. -/
def rootOneCat : RootPage := ⟨some ⟨some [navCat], none⟩⟩

/-- A world with that one category where every parameterised fetch fails. -/
def oneCatWorld : World := ⟨some rootOneCat, fun _ => none⟩

/-- A sub-link carrying a `class` parameter. -/
def lkA : SubLink := ⟨"A", some "ClsA", none⟩

/-- A sub-link carrying no query parameter at all. -/
def lkB : SubLink := ⟨"B", none, none⟩

/-- A script category named `GUI Elements`. -/
def guiInfo : CategoryInfo := ⟨"script", "gui", "G", "GUI Elements", none⟩

/-- A category page whose selected entry nests the two sub-links above. -/
def pgNested : FetchedPage := ⟨some ⟨some ⟨some [lkA, lkB]⟩⟩, none⟩

/-- The leaf produced from `lkA` under `guiInfo`. -/
def leafA : CategoryInfo := ⟨"script", "gui", "ClsA", "A", some "GUI Elements"⟩

/-- A fetched page whose soup has neither sidebar nor `box5`. -/
def pgEmptySoup : FetchedPage := ⟨none, none⟩

/-- A leaf named `Item`. -/
def itemInfo : CategoryInfo := ⟨"script", "c", "k", "Item", none⟩

/-- A fresh scraper state over an empty output directory. -/
def stEmpty : ScrapeState := ⟨initialManifest, []⟩

/-- A fresh scraper state over a directory already holding `navCat`'s file. -/
def stWithCat : ScrapeState := ⟨initialManifest, [("out/script/Cat/Cat.md", "")]⟩

/-! ## Lemmas about the sanitizer -/

lemma dropWhile_head?_false {α : Type} (p : α → Bool) :
    ∀ (l : List α) (c : α), (l.dropWhile p).head? = some c → p c = false := by
  intro l
  induction l with
  | nil => intro c h; simp [List.dropWhile] at h
  | cons a as ih =>
    intro c h
    rw [List.dropWhile_cons] at h
    by_cases hp : p a
    · exact ih c (by simpa [hp] using h)
    · simp [hp] at h
      subst h
      simpa using hp

lemma getLast?_of_dropWhile {α : Type} (p : α → Bool) :
    ∀ (l : List α) (c : α), (l.dropWhile p).getLast? = some c → l.getLast? = some c := by
  intro l
  induction l with
  | nil => intro c h; simp [List.dropWhile] at h
  | cons a as ih =>
    intro c h
    rw [List.dropWhile_cons] at h
    by_cases hp : p a
    · rw [if_pos hp] at h
      have has := ih c h
      cases as with
      | nil => simp at has
      | cons b t => rw [List.getLast?_cons_cons]; exact has
    · rwa [if_neg hp] at h

lemma pyStripL_head? (l : List Char) (c : Char) (h : (pyStripL l).head? = some c) :
    pyIsSpace c = false := by
  unfold pyStripL at h
  rw [List.head?_reverse] at h
  have h2 := getLast?_of_dropWhile pyIsSpace _ _ h
  rw [List.getLast?_reverse] at h2
  exact dropWhile_head?_false pyIsSpace _ _ h2

lemma pyStripL_getLast? (l : List Char) (c : Char) (h : (pyStripL l).getLast? = some c) :
    pyIsSpace c = false := by
  unfold pyStripL at h
  rw [List.getLast?_reverse] at h
  exact dropWhile_head?_false pyIsSpace _ _ h

lemma mem_pyStripL {c : Char} {l : List Char} (h : c ∈ pyStripL l) : c ∈ l := by
  unfold pyStripL at h
  rw [List.mem_reverse] at h
  have h1 := (List.dropWhile_sublist _).subset h
  rw [List.mem_reverse] at h1
  exact (List.dropWhile_sublist _).subset h1

lemma dropWhile_eq_self_of_head? {α : Type} (p : α → Bool) (l : List α)
    (h : ∀ c, l.head? = some c → p c = false) : l.dropWhile p = l := by
  cases l with
  | nil => rfl
  | cons a as =>
    have ha := h a rfl
    simp [List.dropWhile_cons, ha]

lemma pyStripL_eq_self (l : List Char)
    (h1 : ∀ c, l.head? = some c → pyIsSpace c = false)
    (h2 : ∀ c, l.getLast? = some c → pyIsSpace c = false) : pyStripL l = l := by
  unfold pyStripL
  rw [dropWhile_eq_self_of_head? _ _ h1]
  rw [dropWhile_eq_self_of_head? _ _ (fun c hc => h2 c (by rwa [List.head?_reverse] at hc))]
  exact List.reverse_reverse l

lemma getLast?_map {α β : Type} (f : α → β) (l : List α) :
    (l.map f).getLast? = Option.map f l.getLast? := by
  rw [← List.head?_reverse, ← List.map_reverse, List.head?_map, List.head?_reverse]

/-- Every character of a sanitized name is a kept character and is not a
space (spaces were either stripped or replaced by underscores). -/
lemma mem_sanitizeL {c : Char} {l : List Char} (h : c ∈ sanitizeL l) :
    keepSanChar c = true ∧ c ≠ ' ' := by
  unfold sanitizeL replaceSpaceL at h
  rw [List.mem_map] at h
  obtain ⟨c0, hc0, hfc⟩ := h
  have hmem : c0 ∈ l.filter keepSanChar := mem_pyStripL hc0
  have hkeep : keepSanChar c0 = true := (List.mem_filter.mp hmem).2
  by_cases hsp : c0 = ' '
  · rw [if_pos hsp] at hfc
    subst hfc
    exact ⟨by decide, by decide⟩
  · rw [if_neg hsp] at hfc
    subst hfc
    exact ⟨hkeep, hsp⟩

lemma sanitizeL_head? (l : List Char) (c : Char) (h : (sanitizeL l).head? = some c) :
    pyIsSpace c = false := by
  unfold sanitizeL replaceSpaceL at h
  rw [List.head?_map] at h
  cases hu : (pyStripL (l.filter keepSanChar)).head? with
  | none => rw [hu] at h; simp at h
  | some c0 =>
    rw [hu] at h
    simp only [Option.map_some'] at h
    have hns := pyStripL_head? _ _ hu
    have hc0 : c0 ≠ ' ' := by
      intro he
      rw [he] at hns
      simp [pyIsSpace] at hns
    rw [if_neg hc0] at h
    cases h
    exact hns

lemma sanitizeL_getLast? (l : List Char) (c : Char) (h : (sanitizeL l).getLast? = some c) :
    pyIsSpace c = false := by
  unfold sanitizeL replaceSpaceL at h
  rw [getLast?_map] at h
  cases hu : (pyStripL (l.filter keepSanChar)).getLast? with
  | none => rw [hu] at h; simp at h
  | some c0 =>
    rw [hu] at h
    simp only [Option.map_some'] at h
    have hns := pyStripL_getLast? _ _ hu
    have hc0 : c0 ≠ ' ' := by
      intro he
      rw [he] at hns
      simp [pyIsSpace] at hns
    rw [if_neg hc0] at h
    cases h
    exact hns

/-- The sanitizer is idempotent on character lists. -/
lemma sanitizeL_idem (l : List Char) : sanitizeL (sanitizeL l) = sanitizeL l := by
  have hfilter : (sanitizeL l).filter keepSanChar = sanitizeL l :=
    List.filter_eq_self.mpr (fun c hc => (mem_sanitizeL hc).1)
  have hstrip : pyStripL (sanitizeL l) = sanitizeL l :=
    pyStripL_eq_self _ (sanitizeL_head? l) (sanitizeL_getLast? l)
  have hmap : replaceSpaceL (sanitizeL l) = sanitizeL l := by
    unfold replaceSpaceL
    have : ∀ c ∈ sanitizeL l, (if c = ' ' then '_' else c) = id c := by
      intro c hc
      rw [if_neg (mem_sanitizeL hc).2]
      rfl
    rw [List.map_congr_left this, List.map_id]
  calc sanitizeL (sanitizeL l)
      = replaceSpaceL (pyStripL ((sanitizeL l).filter keepSanChar)) := rfl
    _ = replaceSpaceL (pyStripL (sanitizeL l)) := by rw [hfilter]
    _ = replaceSpaceL (sanitizeL l) := by rw [hstrip]
    _ = sanitizeL l := hmap

/-- The sanitizer is idempotent on strings. -/
lemma sanitize_idem (s : String) : sanitize (sanitize s) = sanitize s := by
  show String.mk (sanitizeL (sanitizeL s.data)) = String.mk (sanitizeL s.data)
  rw [sanitizeL_idem]

/-! ## Lemmas about the newline collapser -/

lemma collapseGo_replicate (c : List Char) :
    ∀ (k p : Nat), collapseGo p (List.replicate k '\n' ++ c) = collapseGo (p + k) c := by
  intro k
  induction k with
  | zero => intro p; simp
  | succ n ih =>
    intro p
    rw [List.replicate_succ, List.cons_append, collapseGo, if_pos rfl, ih (p + 1)]
    congr 1
    omega

lemma collapseGo_head_not_nl (c : List Char) (hc : c.head? ≠ some '\n') (k : Nat) :
    collapseGo k c = emitNl k ++ collapseGo 0 c := by
  cases c with
  | nil =>
    show emitNl k = emitNl k ++ emitNl 0
    simp [emitNl]
  | cons a as =>
    have ha : ¬(a = '\n') := by
      intro h
      exact hc (by rw [h]; rfl)
    rw [collapseGo, if_neg ha]
    conv_rhs => rw [collapseGo, if_neg ha]
    rw [show emitNl 0 = [] from rfl]
    simp

lemma collapseGo_split :
    ∀ (a : List Char), a.getLast? ≠ some '\n' → a ≠ [] →
      ∀ (p : Nat) (rest : List Char),
        collapseGo p (a ++ rest) = collapseGo p a ++ collapseGo 0 rest := by
  intro a
  induction a with
  | nil => intro _ hne; exact absurd rfl hne
  | cons x xs ih =>
    intro ha _ p rest
    cases xs with
    | nil =>
      have hx : ¬(x = '\n') := fun h => ha (by simp [h])
      show collapseGo p (x :: rest) = collapseGo p [x] ++ collapseGo 0 rest
      rw [collapseGo, if_neg hx]
      conv_rhs => rw [collapseGo, if_neg hx]
      rw [show collapseGo 0 ([] : List Char) = [] from rfl]
      simp
    | cons y ys =>
      have ha' : (y :: ys).getLast? ≠ some '\n' := by
        rwa [List.getLast?_cons_cons] at ha
      by_cases hx : x = '\n'
      · subst hx
        rw [List.cons_append, collapseGo, if_pos rfl]
        conv_rhs => rw [collapseGo, if_pos rfl]
        exact ih ha' (by simp) (p + 1) rest
      · rw [List.cons_append, collapseGo, if_neg hx]
        conv_rhs => rw [collapseGo, if_neg hx]
        rw [ih ha' (by simp) 0 rest]
        simp

lemma emitNl_ge_two (k : Nat) (h : 2 ≤ k) : emitNl k = ['\n', '\n'] := by
  unfold emitNl
  by_cases h3 : 3 ≤ k
  · rw [if_pos h3]
  · rw [if_neg h3]
    have hk : k = 2 := by omega
    subst hk
    rfl

/-- Collapsing a run of `k ≥ 2` newlines sitting between a part not ending
in a newline and a part not starting with one: the run becomes exactly two
newlines (one blank line), the rest collapses independently. -/
lemma collapseNl_run (a c : List Char) (k : Nat) (hk : 2 ≤ k)
    (ha : a.getLast? ≠ some '\n') (hc : c.head? ≠ some '\n') :
    collapseNl (a ++ List.replicate k '\n' ++ c) =
      collapseNl a ++ ['\n', '\n'] ++ collapseNl c := by
  unfold collapseNl
  by_cases hne : a = []
  · subst hne
    rw [List.nil_append, collapseGo_replicate c k 0, Nat.zero_add,
      collapseGo_head_not_nl c hc k, emitNl_ge_two k hk]
    rw [show collapseGo 0 ([] : List Char) = [] from rfl]
    simp
  · rw [List.append_assoc, collapseGo_split a ha hne 0 (List.replicate k '\n' ++ c),
      collapseGo_replicate c k 0, Nat.zero_add, collapseGo_head_not_nl c hc k,
      emitNl_ge_two k hk]
    simp

/-! ## Lemmas about the manifest counter -/

lemma alistGet_none_set {α : Type} (k : String) (v : α) :
    ∀ (l : List (String × α)), alistGet k l = none → alistSet k v l = l ++ [(k, v)] := by
  intro l
  induction l with
  | nil => intro _; rfl
  | cons e rest ih =>
    obtain ⟨k', v'⟩ := e
    intro h
    rw [alistGet] at h
    by_cases he : k' = k
    · rw [if_pos he] at h
      exact absurd h (by simp)
    · rw [if_neg he] at h
      rw [alistSet, if_neg he, ih h, List.cons_append]

lemma alistGet_append_self {α : Type} (k : String) (v : α) :
    ∀ (l : List (String × α)), alistGet k l = none → alistGet k (l ++ [(k, v)]) = some v := by
  intro l
  induction l with
  | nil => intro _; simp [alistGet]
  | cons e rest ih =>
    obtain ⟨k', v'⟩ := e
    intro h
    rw [alistGet] at h
    by_cases he : k' = k
    · rw [if_pos he] at h
      exact absurd h (by simp)
    · rw [if_neg he] at h
      rw [List.cons_append, alistGet, if_neg he]
      exact ih h

lemma sum_map_alistSet {α : Type} (f : α → Nat) (k : String) (v : α) :
    ∀ (l : List (String × α)) (w : α), alistGet k l = some w →
      ((alistSet k v l).map (fun e => f e.2)).sum + f w
        = (l.map (fun e => f e.2)).sum + f v := by
  intro l
  induction l with
  | nil => intro w h; simp [alistGet] at h
  | cons e rest ih =>
    obtain ⟨k', v'⟩ := e
    intro w h
    rw [alistGet] at h
    by_cases he : k' = k
    · rw [if_pos he] at h
      have hw : v' = w := by injection h
      subst hw
      rw [alistSet, if_pos he]
      simp [Nat.add_comm, Nat.add_left_comm]
    · rw [if_neg he] at h
      rw [alistSet, if_neg he]
      have := ih w h
      simp only [List.map_cons, List.sum_cons]
      omega

lemma alistGet_bucketInit {α : Type} (k : String) (d : α) (l : List (String × α)) :
    alistGet k (bucketInit k d l) = some ((alistGet k l).getD d) := by
  unfold bucketInit
  cases h : alistGet k l with
  | none => simp [alistGet_none_set k d l h, alistGet_append_self k d l h]
  | some w => simp [h]

lemma sum_map_bucketInit {α : Type} (f : α → Nat) (k : String) (d : α) (hd : f d = 0)
    (l : List (String × α)) :
    ((bucketInit k d l).map (fun e => f e.2)).sum = (l.map (fun e => f e.2)).sum := by
  unfold bucketInit
  cases h : alistGet k l with
  | none => rw [Option.isSome_none, if_neg (by simp), alistGet_none_set k d l h]; simp [hd]
  | some w => simp

/-- Updating the `k`-bucket (initialising it when absent) changes the
weighted sum of the association list by the weight difference of that one
bucket. -/
lemma sum_map_alistSet_bucketInit {α : Type} (f : α → Nat) (k : String) (d v : α)
    (hd : f d = 0) (l : List (String × α)) :
    ((alistSet k v (bucketInit k d l)).map (fun e => f e.2)).sum
        + f ((alistGet k (bucketInit k d l)).getD d)
      = (l.map (fun e => f e.2)).sum + f v := by
  have hget : alistGet k (bucketInit k d l) = some ((alistGet k l).getD d) :=
    alistGet_bucketInit k d l
  have h1 := sum_map_alistSet f k v (bucketInit k d l) _ hget
  rw [sum_map_bucketInit f k d hd l] at h1
  rw [hget]
  exact h1

/-- `_add_to_manifest` increments `total_files` by exactly one. -/
lemma add_to_manifest_total (m : Manifest) (v c i p : String) :
    (add_to_manifest m v c i p).metadata.total_files = m.metadata.total_files + 1 := rfl

/-- `_add_to_manifest` adds exactly one stored item. -/
lemma add_to_manifest_sum (m : Manifest) (v c i p : String) :
    manifestSum (add_to_manifest m v c i p) = manifestSum m + 1 := by
  unfold add_to_manifest manifestSum
  simp only []
  set versions0 := bucketInit v { categories := [] } m.versions with hversions0
  set vv := (alistGet v versions0).getD { categories := [] } with hvv
  set cats0 := bucketInit c { items := [] } vv.categories with hcats0
  set cc := (alistGet c cats0).getD { items := [] } with hcc
  set c' : ManifestCategory :=
    { items := cc.items ++ [{ name := i, path := p }] } with hc'
  set v' : ManifestVersion := { categories := alistSet c c' cats0 } with hv'
  have hinner : versionSize v' = versionSize vv + 1 := by
    have h1 := sum_map_alistSet_bucketInit (fun x : ManifestCategory => x.items.length)
      c { items := [] } c' rfl vv.categories
    rw [← hcats0, ← hcc] at h1
    have hc'len : c'.items.length = cc.items.length + 1 := by
      rw [hc', List.length_append]
      rfl
    have hv'eq : versionSize v' = ((alistSet c c' cats0).map (fun e => e.2.items.length)).sum := by
      rw [hv']
      rfl
    rw [hv'eq]
    unfold versionSize
    omega
  have houter := sum_map_alistSet_bucketInit (fun x : ManifestVersion => versionSize x)
    v { categories := [] } v' (by rfl) m.versions
  rw [← hversions0, ← hvv] at houter
  have hvzero : versionSize ({ categories := [] } : ManifestVersion) = 0 := rfl
  omega

/-! ## Lemmas about the scraping loop -/

/-- Per-leaf accounting: `scrape_page` emits no end-of-run event, emits
exactly one save-or-skip event iff it succeeds, and grows `total_files` by
its number of save events. -/
lemma scrape_page_counts (outputDir : String) (net : Params → Option FetchedPage)
    (st : ScrapeState) (info : CategoryInfo) (st1 : ScrapeState) (ok : Bool)
    (ev1 : List Event) (h : scrape_page outputDir net st info = (st1, ok, ev1)) :
    ev1.countP isMetaE = 0 ∧
    ev1.countP isSavedE + ev1.countP isExistsE = (if ok then 1 else 0) ∧
    st1.manifest.metadata.total_files
      = st.manifest.metadata.total_files + ev1.countP isSavedE := by
  unfold scrape_page at h
  by_cases hex : fsHas st.fs (scrapePageCheckPath outputDir info)
  · rw [if_pos hex] at h
    simp only [Prod.mk.injEq] at h
    obtain ⟨rfl, rfl, rfl⟩ := h
    exact ⟨rfl, rfl, rfl⟩
  · rw [if_neg hex] at h
    cases hnet : net (buildParams info) with
    | none =>
      simp only [hnet, Prod.mk.injEq] at h
      obtain ⟨rfl, rfl, rfl⟩ := h
      exact ⟨rfl, rfl, rfl⟩
    | some page =>
      simp only [hnet] at h
      cases hct : extract_content page with
      | none =>
        simp only [hct, Prod.mk.injEq] at h
        obtain ⟨rfl, rfl, rfl⟩ := h
        exact ⟨rfl, rfl, rfl⟩
      | some contentDiv =>
        simp only [hct, save_content, Prod.mk.injEq] at h
        obtain ⟨rfl, rfl, rfl⟩ := h
        exact ⟨rfl, rfl, rfl⟩

/-- Accounting for the inner per-leaf `foldl` of `scrape_all`. -/
lemma foldl_scrapeLeaf_spec (outputDir : String) (net : Params → Option FetchedPage) :
    ∀ (leaves : List CategoryInfo) (st : ScrapeState) (s f : Nat) (evs : List Event),
      ∃ (st' : ScrapeState) (s' f' : Nat) (δ : List Event),
        leaves.foldl (scrapeLeaf outputDir net) (st, s, f, evs) = (st', s', f', evs ++ δ) ∧
        δ.countP isMetaE = 0 ∧
        s' = s + δ.countP isSavedE + δ.countP isExistsE ∧
        s' + f' = s + f + leaves.length ∧
        st'.manifest.metadata.total_files
          = st.manifest.metadata.total_files + δ.countP isSavedE := by
  intro leaves
  induction leaves with
  | nil =>
    intro st s f evs
    exact ⟨st, s, f, [], by simp, rfl, rfl, rfl, rfl⟩
  | cons leaf rest ih =>
    intro st s f evs
    rcases hsp : scrape_page outputDir net st leaf with ⟨st1, ok, ev1⟩
    obtain ⟨hm1, hs1, ht1⟩ := scrape_page_counts outputDir net st leaf st1 ok ev1 hsp
    cases ok with
    | true =>
      have hstep : scrapeLeaf outputDir net (st, s, f, evs) leaf
          = (st1, s + 1, f, evs ++ ev1) := by
        simp [scrapeLeaf, hsp]
      have hs1' : ev1.countP isSavedE + ev1.countP isExistsE = 1 := by simpa using hs1
      obtain ⟨st', s', f', δ', heq, hm', hs', hsf', ht'⟩ := ih st1 (s + 1) f (evs ++ ev1)
      refine ⟨st', s', f', ev1 ++ δ', ?_, ?_, ?_, ?_, ?_⟩
      · rw [List.foldl_cons, hstep, heq, List.append_assoc]
      · rw [List.countP_append]
        omega
      · rw [List.countP_append, List.countP_append]
        omega
      · rw [List.length_cons]
        omega
      · rw [List.countP_append]
        omega
    | false =>
      have hstep : scrapeLeaf outputDir net (st, s, f, evs) leaf
          = (st1, s, f + 1, evs ++ ev1) := by
        simp [scrapeLeaf, hsp]
      have hs1' : ev1.countP isSavedE + ev1.countP isExistsE = 0 := by simpa using hs1
      obtain ⟨st', s', f', δ', heq, hm', hs', hsf', ht'⟩ := ih st1 s (f + 1) (evs ++ ev1)
      refine ⟨st', s', f', ev1 ++ δ', ?_, ?_, ?_, ?_, ?_⟩
      · rw [List.foldl_cons, hstep, heq, List.append_assoc]
      · rw [List.countP_append]
        omega
      · rw [List.countP_append, List.countP_append]
        omega
      · rw [List.length_cons]
        omega
      · rw [List.countP_append]
        omega

/-- Accounting for one iteration of the category loop of `scrape_all`. -/
lemma scrapeCategory_spec (outputDir : String) (net : Params → Option FetchedPage)
    (st : ScrapeState) (s f : Nat) (evs : List Event) (cat : CategoryInfo) :
    ∃ (st' : ScrapeState) (s' f' : Nat) (δ : List Event),
      scrapeCategory outputDir net (st, s, f, evs) cat = (st', s', f', evs ++ δ) ∧
      δ.countP isMetaE = 0 ∧
      s' = s + δ.countP isSavedE + δ.countP isExistsE ∧
      s' + f' = s + f + categoryLeafCount net cat ∧
      st'.manifest.metadata.total_files
        = st.manifest.metadata.total_files + δ.countP isSavedE := by
  unfold scrapeCategory categoryLeafCount
  dsimp only
  by_cases hempty : (get_subcategories cat (net (buildParams cat))).isEmpty
  · rw [if_pos hempty, if_pos hempty]
    obtain ⟨st', s', f', δ', heq, hm', hs', hsf', ht'⟩ :=
      foldl_scrapeLeaf_spec outputDir net [cat] st s f (evs ++ [.fetch (buildParams cat)])
    rw [List.foldl_cons, List.foldl_nil] at heq
    refine ⟨st', s', f', .fetch (buildParams cat) :: δ', ?_, ?_, ?_, ?_, ?_⟩
    · rw [heq, List.append_assoc]
      rfl
    · simpa [isMetaE] using hm'
    · simpa [isSavedE, isExistsE] using hs'
    · simpa using hsf'
    · simpa [isSavedE] using ht'
  · rw [if_neg hempty, if_neg hempty]
    obtain ⟨st', s', f', δ', heq, hm', hs', hsf', ht'⟩ :=
      foldl_scrapeLeaf_spec outputDir net (get_subcategories cat (net (buildParams cat)))
        st s f (evs ++ [.fetch (buildParams cat)])
    refine ⟨st', s', f', .fetch (buildParams cat) :: δ', ?_, ?_, ?_, ?_, ?_⟩
    · rw [heq, List.append_assoc]
      rfl
    · simpa [isMetaE] using hm'
    · simpa [isSavedE, isExistsE] using hs'
    · simpa using hsf'
    · simpa [isSavedE] using ht'

/-- Accounting for the whole category loop. -/
lemma foldl_scrapeCategory_spec (outputDir : String) (net : Params → Option FetchedPage) :
    ∀ (cats : List CategoryInfo) (st : ScrapeState) (s f : Nat) (evs : List Event),
      ∃ (st' : ScrapeState) (s' f' : Nat) (δ : List Event),
        cats.foldl (scrapeCategory outputDir net) (st, s, f, evs) = (st', s', f', evs ++ δ) ∧
        δ.countP isMetaE = 0 ∧
        s' = s + δ.countP isSavedE + δ.countP isExistsE ∧
        s' + f' = s + f + totalLeafCount net cats ∧
        st'.manifest.metadata.total_files
          = st.manifest.metadata.total_files + δ.countP isSavedE := by
  intro cats
  induction cats with
  | nil =>
    intro st s f evs
    exact ⟨st, s, f, [], by simp, rfl, rfl, by simp [totalLeafCount], rfl⟩
  | cons cat rest ih =>
    intro st s f evs
    obtain ⟨st1, s1, f1, δ1, heq1, hm1, hs1, hsf1, ht1⟩ :=
      scrapeCategory_spec outputDir net st s f evs cat
    obtain ⟨st', s', f', δ', heq, hm', hs', hsf', ht'⟩ := ih st1 s1 f1 (evs ++ δ1)
    refine ⟨st', s', f', δ1 ++ δ', ?_, ?_, ?_, ?_, ?_⟩
    · rw [List.foldl_cons, heq1, heq, List.append_assoc]
    · rw [List.countP_append]
      omega
    · rw [List.countP_append, List.countP_append]
      omega
    · have : totalLeafCount net (cat :: rest)
          = categoryLeafCount net cat + totalLeafCount net rest := by
        simp [totalLeafCount]
      omega
    · rw [List.countP_append]
      omega

/-- Accounting for a complete non-aborted run of `scrape_all`. -/
lemma scrape_all_run (outputDir : String) (w : World) (st0 : ScrapeState)
    (h : (parse_main_page w.root).isEmpty = false) :
    ∃ (st' : ScrapeState) (s f : Nat) (δ : List Event),
      scrape_all outputDir w st0 =
        ⟨st', s, f, [Event.fetchRoot] ++ δ ++ [.saveManifest, .saveIndex, .summary s f]⟩ ∧
      δ.countP isMetaE = 0 ∧
      s = δ.countP isSavedE + δ.countP isExistsE ∧
      s + f = totalLeafCount w.net (parse_main_page w.root) ∧
      st'.manifest.metadata.total_files
        = st0.manifest.metadata.total_files + δ.countP isSavedE := by
  obtain ⟨st', s', f', δ, heq, hm, hs, hsf, ht⟩ :=
    foldl_scrapeCategory_spec outputDir w.net (parse_main_page w.root) st0 0 0 [.fetchRoot]
  refine ⟨st', s', f', δ, ?_, hm, by omega, by omega, ht⟩
  unfold scrape_all
  dsimp only
  rw [h]
  simp only [Bool.false_eq_true, if_false]
  rw [heq]

/-- The aborted run: no categories parse from the root page, so nothing is
scraped and nothing is written. -/
lemma scrape_all_abort (outputDir : String) (w : World) (st0 : ScrapeState)
    (h : (parse_main_page w.root).isEmpty = true) :
    scrape_all outputDir w st0 = ⟨st0, 0, 0, [Event.fetchRoot]⟩ := by
  unfold scrape_all
  dsimp only
  rw [h]
  rfl

/-! ## Claim theorems -/

/-- C1: for every leaf whose output file already exists on disk,
`scrape_page` makes no HTTP request (the only event is the
already-present log line, no fetch event), returns success, and leaves
the whole scraper state — in particular the in-memory manifest and its
`total_files` — unchanged. -/
theorem C1_skip_existing_leaf (outputDir : String) (net : Params → Option FetchedPage)
    (st : ScrapeState) (info : CategoryInfo)
    (h : fsHas st.fs (scrapePageCheckPath outputDir info) = true) :
    scrape_page outputDir net st info = (st, true, [Event.alreadyExists info.name]) := by
  unfold scrape_page
  rw [if_pos h]

/-- Witness for C1 at a concrete leaf whose file is present. -/
theorem C1_skip_existing_leaf_witness :
    scrape_page "output" (fun _ => none)
        ⟨initialManifest, [("output/script/Item/Item.md", "")]⟩
        ⟨"script", "c", "cl", "Item", none⟩
      = (⟨initialManifest, [("output/script/Item/Item.md", "")]⟩, true,
          [Event.alreadyExists "Item"]) :=
  C1_skip_existing_leaf "output" (fun _ => none)
    ⟨initialManifest, [("output/script/Item/Item.md", "")]⟩
    ⟨"script", "c", "cl", "Item", none⟩ (by decide)

/-- C3 counterexample: the claim's path ("strip non-alphanumerics, replace
spaces") disagrees with the code on a hyphenated name — the code keeps the
hyphen (and underscores), the spec's words would delete them. -/
theorem C3_path_shape_counterexample :
    scrapePageCheckPath "output"
        { version := "script", category := "cat", param := "cl", name := "a-b",
          category_name := none }
      ≠ spec_path "output"
        { version := "script", category := "cat", param := "cl", name := "a-b",
          category_name := none } := by
  decide

/-- C3 amended: both path computations have the claimed
`<output_root>/<version>/<sanitized_category>/<sanitized_item>.md` shape,
where the sanitizer removes exactly the characters outside `\w` (letters,
digits, underscore), whitespace and hyphen, trims surrounding whitespace,
and replaces spaces by underscores — so its output never contains a space,
and only kept-class characters. -/
theorem C3_path_shape_amended :
    (∀ (outputDir : String) (info : CategoryInfo),
      scrapePageCheckPath outputDir info
          = outputDir ++ "/" ++ info.version ++ "/"
              ++ sanitize (info.category_name.getD info.name) ++ "/"
              ++ sanitize info.name ++ ".md" ∧
      saveContentPath outputDir info
          = outputDir ++ "/" ++ info.version ++ "/"
              ++ sanitize (info.category_name.getD info.name) ++ "/"
              ++ sanitize info.name ++ ".md") ∧
    (∀ (s : String), ∀ c ∈ (sanitize s).data, keepSanChar c = true ∧ c ≠ ' ') := by
  refine ⟨fun outputDir info => ⟨rfl, rfl⟩, ?_⟩
  intro s c hc
  exact mem_sanitizeL hc

/-- Witness for C3 amended at a concrete name containing a space. -/
theorem C3_path_shape_amended_witness :
    scrapePageCheckPath "output"
        { version := "script", category := "cat", param := "cl", name := "a b",
          category_name := none }
      = "output" ++ "/" ++ "script" ++ "/" ++ sanitize "a b" ++ "/"
          ++ sanitize "a b" ++ ".md" ∧
    keepSanChar 'a' = true ∧ 'a' ≠ ' ' :=
  ⟨(C3_path_shape_amended.1 "output"
      { version := "script", category := "cat", param := "cl", name := "a b",
        category_name := none }).1,
   C3_path_shape_amended.2 "a b" 'a' (by decide)⟩

/-- C4: name sanitization is idempotent, and the path computed by the
pre-fetch existence check in `scrape_page` coincides with the path
`save_content` writes to for every `(category, item)` pair — the mapping is
one pure function of the names, hence deterministic across runs. -/
theorem C4_sanitize_idempotent_deterministic :
    (∀ s : String, sanitize (sanitize s) = sanitize s) ∧
    (∀ (outputDir : String) (info : CategoryInfo),
      scrapePageCheckPath outputDir info = saveContentPath outputDir info) :=
  ⟨sanitize_idem, fun _ _ => rfl⟩

/-- C6: the markdown cleanup collapses a run of three or more blank lines
(`b + 1` newlines with `b ≥ 3` blank lines between non-newline context)
to exactly one blank line: the converted output equals the conversion of
the same fragment with exactly one blank line there, and the collapsing
pass itself rewrites the run to exactly two newlines. -/
theorem C6_blank_lines_collapse (a c : String) (b : Nat) (hb : 3 ≤ b)
    (ha : a.data.getLast? ≠ some '\n') (hc : c.data.head? ≠ some '\n') :
    html_to_markdown (a ++ String.mk (List.replicate (b + 1) '\n') ++ c)
        = html_to_markdown (a ++ String.mk (List.replicate 2 '\n') ++ c) ∧
    collapseNl (a.data ++ List.replicate (b + 1) '\n' ++ c.data)
        = collapseNl a.data ++ ['\n', '\n'] ++ collapseNl c.data := by
  have h1 := collapseNl_run a.data c.data (b + 1) (by omega) ha hc
  have h2 := collapseNl_run a.data c.data 2 (by omega) ha hc
  constructor
  · unfold html_to_markdown
    have hdata1 : (a ++ String.mk (List.replicate (b + 1) '\n') ++ c).data
        = a.data ++ List.replicate (b + 1) '\n' ++ c.data := by
      rw [String.data_append, String.data_append]
    have hdata2 : (a ++ String.mk (List.replicate 2 '\n') ++ c).data
        = a.data ++ List.replicate 2 '\n' ++ c.data := by
      rw [String.data_append, String.data_append]
    rw [hdata1, hdata2, h1, h2]
  · exact h1

/-- Witness for C6 at a fragment with three blank lines (four newlines). -/
theorem C6_blank_lines_collapse_witness :
    html_to_markdown ("x" ++ String.mk (List.replicate 4 '\n') ++ "y")
      = html_to_markdown ("x" ++ String.mk (List.replicate 2 '\n') ++ "y") :=
  (C6_blank_lines_collapse "x" "y" 3 (by decide) (by decide) (by decide)).1

/-- C7: `get_page` sleeps the fixed delay, issues exactly one request with
the bounded 30-second timeout, and returns the body exactly on network
success, a null result on any error — no retries. -/
theorem C7_get_page_single_request (url : String) (params : Option Params)
    (resp : NetResponse) :
    (get_page url params resp).2 = [HttpAction.sleep 500, HttpAction.request url params 30] ∧
    (get_page url params resp).2.countP isRequestA = 1 ∧
    (∀ b, (get_page url params resp).1 = some b ↔ resp = NetResponse.success b) := by
  cases resp with
  | success body =>
    refine ⟨rfl, rfl, ?_⟩
    intro b
    constructor
    · intro h
      injection h with h'
      rw [h']
    · intro h
      injection h with h'
      rw [h']
      rfl
  | failure msg =>
    refine ⟨rfl, rfl, ?_⟩
    intro b
    constructor
    · intro h
      exact Option.noConfusion h
    · intro h
      exact NetResponse.noConfusion h

/-- C9: the manifest invariant `total_files = number of stored items` holds
for the empty initial manifest and is preserved by every
`_add_to_manifest`, which appends exactly one item and increments
`total_files` by exactly one. -/
theorem C9_manifest_counter_invariant :
    manifestInv initialManifest ∧
    ∀ (m : Manifest) (v c i p : String), manifestInv m →
      manifestInv (add_to_manifest m v c i p) ∧
      (add_to_manifest m v c i p).metadata.total_files = m.metadata.total_files + 1 ∧
      manifestSum (add_to_manifest m v c i p) = manifestSum m + 1 := by
  refine ⟨rfl, ?_⟩
  intro m v c i p hm
  refine ⟨?_, add_to_manifest_total m v c i p, add_to_manifest_sum m v c i p⟩
  unfold manifestInv at hm ⊢
  rw [add_to_manifest_total, add_to_manifest_sum, hm]

/-- Witness for C9: one insertion into the fresh manifest. -/
theorem C9_manifest_counter_invariant_witness :
    manifestInv (add_to_manifest initialManifest "script" "Cat" "Item" "script/Cat/Item.md") ∧
    (add_to_manifest initialManifest "script" "Cat" "Item"
        "script/Cat/Item.md").metadata.total_files
      = initialManifest.metadata.total_files + 1 ∧
    manifestSum (add_to_manifest initialManifest "script" "Cat" "Item" "script/Cat/Item.md")
      = manifestSum initialManifest + 1 :=
  C9_manifest_counter_invariant.2 initialManifest "script" "Cat" "Item" "script/Cat/Item.md"
    C9_manifest_counter_invariant.1

/-- C2: when the root page yields categories, `scrape_all` writes the
manifest exactly once and the index exactly once and prints the summary of
scraped/failed counts, no matter how many per-leaf fetches failed; when no
categories parse (root fetch/parse failure), it aborts right after the
root fetch with nothing scraped and nothing written. -/
theorem C2_manifest_index_written_once (outputDir : String) (w : World) (st0 : ScrapeState) :
    ((parse_main_page w.root).isEmpty = false →
      (scrape_all outputDir w st0).events.countP isSaveManifestE = 1 ∧
      (scrape_all outputDir w st0).events.countP isSaveIndexE = 1 ∧
      Event.summary (scrape_all outputDir w st0).scraped (scrape_all outputDir w st0).failed
        ∈ (scrape_all outputDir w st0).events) ∧
    ((parse_main_page w.root).isEmpty = true →
      scrape_all outputDir w st0 = ⟨st0, 0, 0, [Event.fetchRoot]⟩) := by
  constructor
  · intro h
    obtain ⟨st', s, f, δ, heq, hm, hs, hsf, ht⟩ := scrape_all_run outputDir w st0 h
    have hManifest : δ.countP isSaveManifestE = 0 := by
      have hle : δ.countP isSaveManifestE ≤ δ.countP isMetaE :=
        List.countP_mono_left (fun e _ hp => by
          cases e <;> simp [isSaveManifestE, isMetaE] at hp ⊢)
      omega
    have hIndex : δ.countP isSaveIndexE = 0 := by
      have hle : δ.countP isSaveIndexE ≤ δ.countP isMetaE :=
        List.countP_mono_left (fun e _ hp => by
          cases e <;> simp [isSaveIndexE, isMetaE] at hp ⊢)
      omega
    rw [heq]
    refine ⟨?_, ?_, ?_⟩
    · show ([Event.fetchRoot] ++ δ
          ++ [Event.saveManifest, Event.saveIndex, Event.summary s f]).countP
            isSaveManifestE = 1
      have h1 : List.countP isSaveManifestE [Event.fetchRoot] = 0 := rfl
      have h2 : List.countP isSaveManifestE
          [Event.saveManifest, Event.saveIndex, Event.summary s f] = 1 := rfl
      rw [List.countP_append, List.countP_append, h1, h2]
      omega
    · show ([Event.fetchRoot] ++ δ
          ++ [Event.saveManifest, Event.saveIndex, Event.summary s f]).countP
            isSaveIndexE = 1
      have h1 : List.countP isSaveIndexE [Event.fetchRoot] = 0 := rfl
      have h2 : List.countP isSaveIndexE
          [Event.saveManifest, Event.saveIndex, Event.summary s f] = 1 := rfl
      rw [List.countP_append, List.countP_append, h1, h2]
      omega
    · show Event.summary s f ∈ [Event.fetchRoot] ++ δ
          ++ [Event.saveManifest, Event.saveIndex, Event.summary s f]
      simp
  · intro h
    exact scrape_all_abort outputDir w st0 h

/-- Witness for C2: a one-category world whose every leaf fetch fails —
the manifest and index writes and the summary still happen. -/
theorem C2_manifest_index_written_once_witness :
    (scrape_all "out" oneCatWorld stEmpty).events.countP isSaveManifestE = 1 ∧
    (scrape_all "out" oneCatWorld stEmpty).events.countP isSaveIndexE = 1 ∧
    Event.summary (scrape_all "out" oneCatWorld stEmpty).scraped
        (scrape_all "out" oneCatWorld stEmpty).failed
      ∈ (scrape_all "out" oneCatWorld stEmpty).events :=
  (C2_manifest_index_written_once "out" oneCatWorld stEmpty).1 (by decide)

/-- C5 counterexample: a category page whose nested sub-list holds two
sub-links, one of them without a `class` parameter — extraction returns
one leaf, not one per sub-link. -/
theorem C5_subcategory_extraction_counterexample :
    get_subcategories guiInfo (some pgNested) = [leafA] ∧
    (get_subcategories guiInfo (some pgNested)).length ≠ [lkA, lkB].length := by
  decide

/-- C5 amended: on a fetched category page with the sidebar present, each
sub-link of the nested sub-list *that carries the version-matching query
parameter* yields one leaf inheriting the parent's display name; sub-links
without it are dropped. When nothing qualifies (no selected entry, no
nested sub-list, or no qualifying sub-link) the category itself is the
single leaf; a page without the sidebar yields an empty list. -/
theorem C5_subcategory_extraction_amended :
    (∀ (info : CategoryInfo) (pg : FetchedPage) (sb : Sidebar) (li : SelectedLi)
        (links : List SubLink),
      pg.sidebar = some sb → sb.selectedLi = some li → li.nestedUl = some links →
      (get_subcategories info (some pg)
          = (if (links.filterMap (subLinkToLeaf info)).isEmpty then [info]
             else links.filterMap (subLinkToLeaf info)) ∧
        ∀ sub ∈ links.filterMap (subLinkToLeaf info),
          sub.category_name = some info.name ∧ sub.version = info.version ∧
            sub.category = info.category)) ∧
    (∀ (info : CategoryInfo) (pg : FetchedPage) (sb : Sidebar),
      pg.sidebar = some sb →
      (sb.selectedLi = none ∨ ∃ li, sb.selectedLi = some li ∧ li.nestedUl = none) →
      get_subcategories info (some pg) = [info]) ∧
    (∀ (info : CategoryInfo) (pg : FetchedPage),
      pg.sidebar = none → get_subcategories info (some pg) = []) := by
  refine ⟨?_, ?_, ?_⟩
  · intro info pg sb li links hsb hli hul
    constructor
    · simp only [get_subcategories, hsb, hli, hul]
    · intro sub hsub
      rw [List.mem_filterMap] at hsub
      obtain ⟨lk, _, hlk⟩ := hsub
      unfold subLinkToLeaf at hlk
      by_cases hv : info.version = "script"
      · rw [if_pos hv] at hlk
        obtain ⟨cval, _, hback⟩ := Option.map_eq_some'.mp hlk
        subst hback
        exact ⟨rfl, rfl, rfl⟩
      · rw [if_neg hv] at hlk
        by_cases he : info.version = "engine"
        · rw [if_pos he] at hlk
          obtain ⟨fval, _, hback⟩ := Option.map_eq_some'.mp hlk
          subst hback
          exact ⟨rfl, rfl, rfl⟩
        · rw [if_neg he] at hlk
          exact Option.noConfusion hlk
  · intro info pg sb hsb hcase
    rcases hcase with hnone | ⟨li, hli, hul⟩
    · simp [get_subcategories, hsb, hnone]
    · simp [get_subcategories, hsb, hli, hul]
  · intro info pg hsb
    simp [get_subcategories, hsb]

/-- Witness for C5 amended: concrete page with one qualifying and one
non-qualifying sub-link. -/
theorem C5_subcategory_extraction_amended_witness :
    get_subcategories guiInfo (some pgNested) = [leafA] ∧
    ∀ sub ∈ [lkA, lkB].filterMap (subLinkToLeaf guiInfo),
      sub.category_name = some "GUI Elements" ∧ sub.version = "script" ∧
        sub.category = "gui" :=
  C5_subcategory_extraction_amended.1 guiInfo pgNested ⟨some ⟨some [lkA, lkB]⟩⟩
    ⟨some [lkA, lkB]⟩ [lkA, lkB] rfl rfl rfl

/-- C8: content extraction returns a null result exactly when the `box5`
container, its `entry` region or a second non-recursive child division is
absent; the caller then logs the missing content, reports the leaf as
failed without touching the state, a failed leaf bumps only the failure
counter, and the run goes on: scraped plus failed always accounts for
every leaf of the run. -/
theorem C8_missing_content_is_nonfatal :
    (∀ pg : FetchedPage,
      extract_content pg = none ↔
        (pg.box5 = none ∨ ∃ b5, pg.box5 = some b5 ∧
          (b5.entry = none ∨ ∃ e, b5.entry = some e ∧ e.childDivs.length < 2))) ∧
    (∀ (outputDir : String) (net : Params → Option FetchedPage) (st : ScrapeState)
        (info : CategoryInfo) (pg : FetchedPage),
      fsHas st.fs (scrapePageCheckPath outputDir info) = false →
      net (buildParams info) = some pg →
      extract_content pg = none →
      scrape_page outputDir net st info
        = (st, false, [Event.fetch (buildParams info), Event.noContent info.name])) ∧
    (∀ (outputDir : String) (net : Params → Option FetchedPage) (st : ScrapeState)
        (s f : Nat) (evs : List Event) (info : CategoryInfo) (st1 : ScrapeState)
        (ev1 : List Event),
      scrape_page outputDir net st info = (st1, false, ev1) →
      scrapeLeaf outputDir net (st, s, f, evs) info = (st1, s, f + 1, evs ++ ev1)) ∧
    (∀ (outputDir : String) (w : World) (st0 : ScrapeState),
      (scrape_all outputDir w st0).scraped + (scrape_all outputDir w st0).failed
        = totalLeafCount w.net (parse_main_page w.root)) := by
  refine ⟨?_, ?_, ?_, ?_⟩
  · intro pg
    cases hb : pg.box5 with
    | none => simp [extract_content, hb]
    | some b5 =>
      cases he : b5.entry with
      | none => simp [extract_content, hb, he]
      | some e =>
        simp [extract_content, hb, he, List.get?_eq_none]
        omega
  · intro outputDir net st info pg hfs hnet hct
    unfold scrape_page
    rw [if_neg (by simp [hfs])]
    simp only [hnet, hct]
  · intro outputDir net st s f evs info st1 ev1 h
    simp [scrapeLeaf, h]
  · intro outputDir w st0
    by_cases hroot : (parse_main_page w.root).isEmpty
    · rw [scrape_all_abort outputDir w st0 hroot]
      rw [List.isEmpty_iff.mp hroot]
      rfl
    · rw [Bool.not_eq_true] at hroot
      obtain ⟨st', s, f, δ, heq, hm, hs, hsf, ht⟩ := scrape_all_run outputDir w st0 hroot
      rw [heq]
      exact hsf

/-- Witness for C8: a fetched page whose soup has no `box5`. -/
theorem C8_missing_content_is_nonfatal_witness :
    scrape_page "out" (fun _ => some pgEmptySoup) stEmpty itemInfo
      = (stEmpty, false,
          [Event.fetch (buildParams itemInfo), Event.noContent "Item"]) :=
  C8_missing_content_is_nonfatal.2.1 "out" (fun _ => some pgEmptySoup) stEmpty itemInfo
    pgEmptySoup (by decide) rfl rfl

/-- C10: a leaf skipped by the existence check counts towards the printed
"Successfully scraped" tally: on a fresh-manifest run, the scraped count
equals save events plus skip events, the final `total_files` equals the
save events alone, and whenever at least one leaf was skipped the scraped
count strictly exceeds `total_files`. -/
theorem C10_skipped_counts_as_scraped (outputDir : String) (w : World) (st0 : ScrapeState)
    (h0 : st0.manifest = initialManifest) :
    (scrape_all outputDir w st0).scraped
        = (scrape_all outputDir w st0).events.countP isSavedE
          + (scrape_all outputDir w st0).events.countP isExistsE ∧
    (scrape_all outputDir w st0).state.manifest.metadata.total_files
        = (scrape_all outputDir w st0).events.countP isSavedE ∧
    (0 < (scrape_all outputDir w st0).events.countP isExistsE →
      (scrape_all outputDir w st0).state.manifest.metadata.total_files
        < (scrape_all outputDir w st0).scraped) := by
  by_cases hroot : (parse_main_page w.root).isEmpty
  · rw [scrape_all_abort outputDir w st0 hroot]
    refine ⟨rfl, ?_, ?_⟩
    · show st0.manifest.metadata.total_files = _
      rw [h0]
      rfl
    · intro hpos
      have hz : (⟨st0, 0, 0, [Event.fetchRoot]⟩ : RunResult).events.countP isExistsE = 0 := rfl
      omega
  · rw [Bool.not_eq_true] at hroot
    obtain ⟨st', s, f, δ, heq, hm, hs, hsf, ht⟩ := scrape_all_run outputDir w st0 hroot
    have hSave :
        ([Event.fetchRoot] ++ δ
          ++ [Event.saveManifest, Event.saveIndex, Event.summary s f]).countP isSavedE
          = δ.countP isSavedE := by
      have h1 : List.countP isSavedE [Event.fetchRoot] = 0 := rfl
      have h2 : List.countP isSavedE
          [Event.saveManifest, Event.saveIndex, Event.summary s f] = 0 := rfl
      rw [List.countP_append, List.countP_append, h1, h2]
      omega
    have hEx :
        ([Event.fetchRoot] ++ δ
          ++ [Event.saveManifest, Event.saveIndex, Event.summary s f]).countP isExistsE
          = δ.countP isExistsE := by
      have h1 : List.countP isExistsE [Event.fetchRoot] = 0 := rfl
      have h2 : List.countP isExistsE
          [Event.saveManifest, Event.saveIndex, Event.summary s f] = 0 := rfl
      rw [List.countP_append, List.countP_append, h1, h2]
      omega
    have htot0 : st0.manifest.metadata.total_files = 0 := by
      rw [h0]
      rfl
    rw [heq]
    refine ⟨?_, ?_, ?_⟩
    · show s = ([Event.fetchRoot] ++ δ
          ++ [Event.saveManifest, Event.saveIndex, Event.summary s f]).countP isSavedE
          + ([Event.fetchRoot] ++ δ
          ++ [Event.saveManifest, Event.saveIndex, Event.summary s f]).countP isExistsE
      rw [hSave, hEx]
      omega
    · show st'.manifest.metadata.total_files = ([Event.fetchRoot] ++ δ
          ++ [Event.saveManifest, Event.saveIndex, Event.summary s f]).countP isSavedE
      rw [hSave]
      omega
    · intro hpos
      rw [hEx] at hpos
      show st'.manifest.metadata.total_files < s
      omega

/-- Witness for C10: a run over one category whose single leaf file
already exists — `total_files` stays 0 while the scraped count is 1. -/
theorem C10_skipped_counts_as_scraped_witness :
    (scrape_all "out" oneCatWorld stWithCat).state.manifest.metadata.total_files
      < (scrape_all "out" oneCatWorld stWithCat).scraped :=
  (C10_skipped_counts_as_scraped "out" oneCatWorld stWithCat rfl).2.2 (by decide)

end FS25
